import Mathlib

/-!
Shallow embedding of the mini-MMORPG browser client found in this repository
(src/game.js, src/script.js, src/debug_game.js, src/main.js), together with
theorems checking the natural-language specification against it.

The embedding follows the JavaScript sources:

* JS numbers are modelled as rationals where fractional values can occur
  (actor positions, camera coordinates); canvas/viewport dimensions are
  integers (the HTML canvas width/height attributes are integral).
* JS objects held in tables are modelled with an explicit heap
  (reference ↦ record), because `GameClient.myPlayer` and
  `GameClient.players[playerId]` alias the same mutable object and several
  handlers mutate records in place via `Object.assign`.
* Fallible or partial operations return `Option`.
-/

namespace MMO

/-! ## Data model -/

/-- JS `Math.round`: rounds half toward positive infinity. -/
def jsRound (q : ℚ) : ℤ := ⌊q + 1 / 2⌋

/-- An actor record as stored in `GameClient.players` (src/game.js). -/
structure Player where
  id : String
  x : ℚ
  y : ℚ
  facing : Option String
  animationFrame : ℕ
  isMoving : Bool
  username : String
  avatar : String
deriving DecidableEq

/-- A partial actor record carried by a `players_moved` message: each field is
either absent (`none`) or supplied (`some`). -/
structure PlayerUpdate where
  id : Option String
  x : Option ℚ
  y : Option ℚ
  facing : Option String
  animationFrame : Option ℕ
  isMoving : Option Bool
  username : Option String
  avatar : Option String
deriving DecidableEq

/-- `Object.assign(target, update)` on an actor record: fields present in the
update overwrite the target, absent fields keep the target value
(src/game.js lines 157 and 161). -/
def assignPlayer (p : Player) (u : PlayerUpdate) : Player where
  id := u.id.getD p.id
  x := u.x.getD p.x
  y := u.y.getD p.y
  facing := if u.facing.isSome then u.facing else p.facing
  animationFrame := u.animationFrame.getD p.animationFrame
  isMoving := u.isMoving.getD p.isMoving
  username := u.username.getD p.username
  avatar := u.avatar.getD p.avatar

/-- Association-list lookup, matching JS object property read `obj[k]`. -/
def lookupStr {α : Type} : List (String × α) → String → Option α
  | [], _ => none
  | (k0, v) :: rest, k => if k0 = k then some v else lookupStr rest k

/-- JS object property write `obj[k] = v`: overwrite in place or append. -/
def insertStr {α : Type} : List (String × α) → String → α → List (String × α)
  | [], k, v => [(k, v)]
  | (k0, v0) :: rest, k, v =>
    if k0 = k then (k0, v) :: rest else (k0, v0) :: insertStr rest k v

/-- JS `delete obj[k]`. -/
def removeStr {α : Type} : List (String × α) → String → List (String × α)
  | [], _ => []
  | (k0, v0) :: rest, k =>
    if k0 = k then removeStr rest k else (k0, v0) :: removeStr rest k

/-- An avatar asset set: name plus frame lists keyed by direction
(the `frames` object of the wire format). -/
structure Avatar where
  name : String
  frames : List (String × List String)
deriving DecidableEq

/-- The camera rectangle (`GameClient.camera`). The canvas dimensions copied
into `width`/`height` are integers. -/
structure Camera where
  x : ℚ
  y : ℚ
  width : ℤ
  height : ℤ
deriving DecidableEq

/-- `GameClient.worldWidth` (src/game.js line 7). -/
def worldWidth : ℤ := 2048

/-- `GameClient.worldHeight` (src/game.js line 8). -/
def worldHeight : ℤ := 2048

/-- One axis of `centerCameraOnPlayer` (src/game.js lines 195-212): the ideal
top-left `pos - view/2` is clamped by `Math.max(0, Math.min(ideal, world -
view))` and then rounded to an integer with `Math.round`. -/
def centerAxis (pos : ℚ) (view world : ℤ) : ℤ :=
  jsRound (max 0 (min (pos - (view : ℚ) / 2) ((world : ℚ) - (view : ℚ))))

/-- `centerCameraOnPlayer` applied to a given actor record: both axes. -/
def centerCameraPure (p : Player) (c : Camera) : Camera :=
  { c with
    x := ((centerAxis p.x c.width worldWidth : ℤ) : ℚ)
    y := ((centerAxis p.y c.height worldHeight : ℤ) : ℚ) }

/-! ## The GameClient state machine (src/game.js)

JS object identity is made explicit: `heap` maps references (allocated in
order by `nextRef`) to actor records, the actor table maps player ids to
references, and `myPlayer` holds a reference (or `none`).  `Object.assign`
mutates the heap cell in place; `delete this.players[id]` removes only the
table entry, never the heap cell — exactly the JS garbage-collection view.
The renderer-only dirty flag `needsRedraw` is presentation state outside the
synchronization core and is not modelled. -/

/-- Heap lookup: dereference a JS object reference. -/
def lookupRef : List (ℕ × Player) → ℕ → Option Player
  | [], _ => none
  | (r0, p) :: rest, r => if r0 = r then some p else lookupRef rest r

/-- In-place mutation of the object a reference denotes (`Object.assign`
target); a reference not in the heap leaves it unchanged (unreachable from
the initial state, since heap cells are never removed). -/
def heapAssign : List (ℕ × Player) → ℕ → Player → List (ℕ × Player)
  | [], _, _ => []
  | (r0, p0) :: rest, r, p =>
    if r0 = r then (r0, p) :: rest else (r0, p0) :: heapAssign rest r p

/-- The mutable state of a `GameClient` instance (src/game.js lines 3-33). -/
structure GameState where
  heap : List (ℕ × Player)
  nextRef : ℕ
  playerId : Option String
  players : List (String × ℕ)
  avatars : List (String × Avatar)
  myPlayer : Option ℕ
  camera : Camera
  worldImageLoaded : Bool
  playerDataReceived : Bool
deriving DecidableEq

/-- The state right after the constructor and `setupCanvas` ran with a window
of the given size: empty tables, camera at (0,0), no flags set. -/
def initState (w h : ℤ) : GameState :=
  { heap := []
    nextRef := 0
    playerId := none
    players := []
    avatars := []
    myPlayer := none
    camera := ⟨0, 0, w, h⟩
    worldImageLoaded := false
    playerDataReceived := false }

/-- `centerCameraOnPlayer` (src/game.js lines 195-212): returns the new state
and whether centering actually executed (it returns early when there is no
local player; a dangling reference cannot occur from the initial state). -/
def centerCameraOnPlayer (s : GameState) : GameState × Bool :=
  match s.myPlayer with
  | none => (s, false)
  | some r =>
    match lookupRef s.heap r with
    | none => (s, false)
    | some p => ({ s with camera := centerCameraPure p s.camera }, true)

/-- `checkAndCenterCamera` (src/game.js lines 189-193): center only when the
backdrop image has loaded, the join response arrived, and the local player
record exists. -/
def checkAndCenterCamera (s : GameState) : GameState × Bool :=
  if s.worldImageLoaded && s.playerDataReceived && s.myPlayer.isSome then
    centerCameraOnPlayer s
  else (s, false)

/-- Allocation of the actor records delivered by a join snapshot: each record
of the message is a fresh JS object.  Returns the new heap, the next free
reference and the actor table (id ↦ reference). -/
def allocPlayers (heap : List (ℕ × Player)) (next : ℕ) :
    List (String × Player) → List (ℕ × Player) × ℕ × List (String × ℕ)
  | [] => (heap, next, [])
  | (pid, p) :: rest =>
    let res := allocPlayers ((next, p) :: heap) (next + 1) rest
    (res.1, res.2.1, (pid, next) :: res.2.2)

/-- `handleJoinGameSuccess` (src/game.js lines 135-145): wholesale replace the
actor and avatar tables with the snapshots, set the local id, resolve
`myPlayer` by table lookup (`|| null`), mark roster-ready, then try the gated
centering.  Returns the state and whether centering executed. -/
def handleJoinGameSuccess (s : GameState) (pid : String)
    (ps : List (String × Player)) (avs : List (String × Avatar)) :
    GameState × Bool :=
  let a := allocPlayers s.heap s.nextRef ps
  checkAndCenterCamera
    { s with
      heap := a.1
      nextRef := a.2.1
      playerId := some pid
      players := a.2.2
      avatars := avs
      myPlayer := lookupStr a.2.2 pid
      playerDataReceived := true }

/-- `handlePlayerJoined` (src/game.js lines 147-152): allocate the fresh
record of the message, upsert the actor table and the avatar table. -/
def handlePlayerJoined (s : GameState) (p : Player) (av : Avatar) : GameState :=
  { s with
    heap := (s.nextRef, p) :: s.heap
    nextRef := s.nextRef + 1
    players := insertStr s.players p.id s.nextRef
    avatars := insertStr s.avatars av.name av }

/-- One iteration of the `Object.keys(message.players).forEach` loop of
`handlePlayersMoved` (src/game.js lines 155-158): ids present in the table
get the supplied fields merged into their record in place; unknown ids are
skipped. -/
def playersMovedStep (acc : GameState) (kv : String × PlayerUpdate) : GameState :=
  match lookupStr acc.players kv.1 with
  | none => acc
  | some r =>
    match lookupRef acc.heap r with
    | none => acc
    | some p => { acc with heap := heapAssign acc.heap r (assignPlayer p kv.2) }

/-- `handlePlayersMoved` (src/game.js lines 154-165): merge every update into
the table records, then, if the message names the local id and `myPlayer` is
set, merge into the `myPlayer` record as well and recenter the camera.
Returns the state and whether centering executed. -/
def handlePlayersMoved (s : GameState) (msg : List (String × PlayerUpdate)) :
    GameState × Bool :=
  let s1 := msg.foldl playersMovedStep s
  match s1.myPlayer, s1.playerId with
  | some r, some pid =>
    match lookupStr msg pid with
    | none => (s1, false)
    | some u =>
      match lookupRef s1.heap r with
      | none => (s1, false)
      | some p =>
        centerCameraOnPlayer { s1 with heap := heapAssign s1.heap r (assignPlayer p u) }
  | _, _ => (s1, false)

/-- `handlePlayerLeft` (src/game.js lines 167-170): remove the table entry.
Neither `myPlayer` nor any heap cell is touched. -/
def handlePlayerLeft (s : GameState) (pid : String) : GameState :=
  { s with players := removeStr s.players pid }

/-- Parsed inbound server messages (src/game.js `handleServerMessage`). -/
inductive ServerMsg where
  | joinGame (success : Bool) (playerId : String)
      (players : List (String × Player)) (avatars : List (String × Avatar))
      (error : String)
  | playerJoined (player : Player) (avatar : Avatar)
  | playersMoved (players : List (String × PlayerUpdate))
  | playerLeft (playerId : String)
  | other
deriving DecidableEq

/-- Observable output of one event-handler run: whether camera centering
executed during the step, and the console error log. -/
structure StepOut where
  centered : Bool
  logs : List String
deriving DecidableEq

/-- `handleServerMessage` (src/game.js lines 115-133).  A rejected join only
logs the error; unknown actions are dropped. -/
def handleServerMessage (s : GameState) : ServerMsg → GameState × StepOut
  | .joinGame true pid ps avs _ =>
    let r := handleJoinGameSuccess s pid ps avs
    (r.1, ⟨r.2, []⟩)
  | .joinGame false _ _ _ err => (s, ⟨false, ["Join game failed: " ++ err]⟩)
  | .playerJoined p av => (handlePlayerJoined s p av, ⟨false, []⟩)
  | .playersMoved msg =>
    let r := handlePlayersMoved s msg
    (r.1, ⟨r.2, []⟩)
  | .playerLeft pid => (handlePlayerLeft s pid, ⟨false, []⟩)
  | .other => (s, ⟨false, []⟩)

/-- The discrete events driving a `GameClient`. -/
inductive Event where
  | worldImageLoad
  | serverMsg (m : ServerMsg)
  | resize (w h : ℤ)
deriving DecidableEq

/-- One event-processing step.  `worldImageLoad` is the backdrop `onload`
callback (src/game.js lines 62-66); `resize` is the window resize listener
(src/game.js lines 49-57), which recenters whenever a local player exists —
without consulting the readiness flags. -/
def step (s : GameState) : Event → GameState × StepOut
  | .worldImageLoad =>
    let r := checkAndCenterCamera { s with worldImageLoaded := true }
    (r.1, ⟨r.2, []⟩)
  | .serverMsg m => handleServerMessage s m
  | .resize w h =>
    let s1 := { s with camera := { s.camera with width := w, height := h } }
    match s1.myPlayer with
    | some _ =>
      let r := centerCameraOnPlayer s1
      (r.1, ⟨r.2, []⟩)
    | none => (s1, ⟨false, []⟩)

/-- Run a list of events from a state. -/
def run (s : GameState) : List Event → GameState
  | [] => s
  | e :: es => run (step s e).1 es

/-- A state the client can actually be in: reached from some initial window
size by some event sequence. -/
def Reachable (s : GameState) : Prop :=
  ∃ w h evs, run (initState w h) evs = s

/-- The local-reference aliasing invariant: whenever the local id is set, the
`myPlayer` reference and the actor-table lookup of that id agree. -/
def Aliased (s : GameState) : Prop :=
  ∀ pid, s.playerId = some pid → s.myPlayer = lookupStr s.players pid

/-- Heap well-formedness of the local reference: if `myPlayer` holds a
reference, the heap has a cell for it. -/
def WFMy (s : GameState) : Prop :=
  ∀ r, s.myPlayer = some r → (lookupRef s.heap r).isSome = true

/-! ## The third client variant (src/script.js lines 458-743)

Its `players` table stores the plain JS objects taken from the wire, so a
record there may have absent fields; `players_moved` performs
`Object.assign(players, message.players)` at the TABLE level, which rebinds
each mentioned key to the partial update object itself. -/

/-- `Object.assign(players, message.players)` (src/script.js line 551). -/
def objAssignTable (table msg : List (String × PlayerUpdate)) :
    List (String × PlayerUpdate) :=
  msg.foldl (fun t kv => insertStr t kv.1 kv.2) table

/-! ## Input translation -/

/-- The arrow keys tracked by the `keysPressed` object of the third client
variant (src/script.js lines 482-487). -/
inductive ArrowKey where
  | up
  | down
  | left
  | right
deriving DecidableEq

/-- The `keysPressed` object, fields in its insertion order
(src/script.js lines 482-487). -/
structure KeysPressed where
  arrowUp : Bool
  arrowDown : Bool
  arrowLeft : Bool
  arrowRight : Bool
deriving DecidableEq

/-- Property read `keysPressed[event.key]`. -/
def KeysPressed.get (ks : KeysPressed) : ArrowKey → Bool
  | .up => ks.arrowUp
  | .down => ks.arrowDown
  | .left => ks.arrowLeft
  | .right => ks.arrowRight

/-- Property write `keysPressed[event.key] = b`. -/
def KeysPressed.set (ks : KeysPressed) : ArrowKey → Bool → KeysPressed
  | .up, b => { ks with arrowUp := b }
  | .down, b => { ks with arrowDown := b }
  | .left, b => { ks with arrowLeft := b }
  | .right, b => { ks with arrowRight := b }

instance : Fintype ArrowKey :=
  ⟨{.up, .down, .left, .right}, by intro x; cases x <;> decide⟩

instance : Fintype KeysPressed :=
  Fintype.ofEquiv (Bool × Bool × Bool × Bool)
    { toFun := fun t => ⟨t.1, t.2.1, t.2.2.1, t.2.2.2⟩
      invFun := fun s => (s.arrowUp, s.arrowDown, s.arrowLeft, s.arrowRight)
      left_inv := fun t => rfl
      right_inv := fun s => rfl }

/-- Outbound movement commands produced by the input translators. -/
inductive OutMsg where
  | move (direction : String)
  | stop
deriving DecidableEq

/-- `key.toLowerCase().replace(...)` mapping an arrow key to a wire
direction (src/script.js line 631). -/
def toDirection : ArrowKey → String
  | .up => "up"
  | .down => "down"
  | .left => "left"
  | .right => "right"

/-- The `for (const [key, pressed] of Object.entries(keysPressed))` loop with
`break` (src/script.js lines 629-635): the first still-pressed key in the
insertion order ArrowUp, ArrowDown, ArrowLeft, ArrowRight. -/
def firstPressed (ks : KeysPressed) : Option ArrowKey :=
  if ks.arrowUp then some .up
  else if ks.arrowDown then some .down
  else if ks.arrowLeft then some .left
  else if ks.arrowRight then some .right
  else none

/-- `sendMoveCommand` of the third variant (src/script.js lines 574-580):
sends iff the channel is open. -/
def sendMoveCommandV2 (wsOpen : Bool) (direction : String) : List OutMsg :=
  if wsOpen then [.move direction] else []

/-- `sendStopCommand` of the third variant (src/script.js lines 582-587). -/
def sendStopCommandV2 (wsOpen : Bool) : List OutMsg :=
  if wsOpen then [.stop] else []

/-- The keyup listener of the third variant (src/script.js lines 618-638):
ignore events before join or for keys not currently recorded as pressed;
otherwise clear the key, then send one stop if nothing remains held, else one
move for the first remaining held key.  Returns the new key state and the
sent messages. -/
def handleKeyUpV2 (myJoined wsOpen : Bool) (ks : KeysPressed) (k : ArrowKey) :
    KeysPressed × List OutMsg :=
  if myJoined = false then (ks, [])
  else if ks.get k then
    let ks1 := ks.set k false
    match firstPressed ks1 with
    | none => (ks1, sendStopCommandV2 wsOpen)
    | some k1 => (ks1, sendMoveCommandV2 wsOpen (toDirection k1))
  else (ks, [])

/-- The movement keys of the GameClient keyup listener
(src/game.js lines 362-375). -/
def movementKeys : List String :=
  ["ArrowUp", "ArrowDown", "ArrowLeft", "ArrowRight",
   "w", "W", "a", "A", "s", "S", "d", "D"]

/-- The GameClient keyup listener (src/game.js lines 361-379): it keeps no
record of held keys and sends a stop on release of ANY movement key
(`sendStopCommand`, src/game.js lines 398-401, sends iff the channel is
open). -/
def handleKeyUpGame (wsOpen : Bool) (key : String) : List OutMsg :=
  if movementKeys.contains key then
    (if wsOpen then [OutMsg.stop] else [])
  else []

/-! ## Reconnection (src/game.js lines 74-108) -/

/-- `GameClient.maxReconnectAttempts` (src/game.js line 22). -/
def maxReconnectAttempts : ℕ := 5

/-- Result of one `attemptReconnect` call: new counter value, the delay of
the `setTimeout` it scheduled (if any), and whether the terminal
"Max reconnection attempts reached" error was reported. -/
structure ReconnectOut where
  attempts : ℕ
  scheduledDelay : Option ℕ
  maxReachedError : Bool
deriving DecidableEq

/-- `attemptReconnect` (src/game.js lines 101-108): below the maximum the
counter is incremented first, then a retry is scheduled after
`2000 * reconnectAttempts` ms; otherwise nothing is scheduled and the
terminal condition is reported. -/
def attemptReconnect (attempts : ℕ) : ReconnectOut :=
  if attempts < maxReconnectAttempts then
    ⟨attempts + 1, some (2000 * (attempts + 1)), false⟩
  else ⟨attempts, none, true⟩

/-- The `onopen` handler resets the counter (src/game.js line 75). -/
def onOpenResetAttempts (_attempts : ℕ) : ℕ := 0

/-- Counter value after `n` consecutive close events starting from a fresh
(or just-reset) connection. -/
def attemptsAfterCloses : ℕ → ℕ
  | 0 => 0
  | n + 1 => (attemptReconnect (attemptsAfterCloses n)).attempts

/-! ## Frame/direction resolution -/

/-- The frame-resolution step of `GameClient.drawPlayer`
(src/game.js lines 261-272): pick the list for the facing direction
(default "south"); if it is missing or empty and the facing is "west", fall
back to the "east" list with the mirror flag set; if the list is still
missing or empty the actor is skipped (`none`); otherwise the frame index is
clamped to the last valid index. -/
def resolveFrameGame (framesByDir : List (String × List String))
    (facing : Option String) (animationFrame : ℕ) : Option (String × Bool) :=
  let dir := facing.getD "south"
  let frames0 := (lookupStr framesByDir dir).getD []
  let fb : List String × Bool :=
    if frames0.isEmpty ∧ dir = "west" then
      ((lookupStr framesByDir "east").getD [], true)
    else (frames0, false)
  if fb.1.isEmpty then none
  else some (fb.1.getD (min animationFrame (fb.1.length - 1)) "", fb.2)

/-- The frame-resolution step of the debug variant
(src/debug_game.js lines 361-374): the east fallback fires only when the
west list is MISSING (`!frames`), not when it is present but empty, and the
frame index is not clamped — an out-of-range index skips the actor.  The
mirror flag is decided later purely from `player.facing === "west"`
(src/debug_game.js line 386). -/
def resolveFrameDebug (framesByDir : List (String × List String))
    (facing : Option String) (animationFrame : ℕ) : Option (String × Bool) :=
  let frames0 :=
    match facing with
    | some f => lookupStr framesByDir f
    | none => none
  let frames1 :=
    if frames0 = none ∧ facing = some "west" then lookupStr framesByDir "east"
    else frames0
  match frames1 with
  | none => none
  | some frames =>
    match frames.get? animationFrame with
    | none => none
    | some f => some (f, decide (facing = some "west"))

/-- A concrete actor used by witnesses and counterexamples. -/
def samplePlayer : Player :=
  ⟨"p1", 100, 100, some "south", 0, false, "Blankey", "av"⟩

/-! ## Helper lemmas -/

theorem jsRound_nonneg {q : ℚ} (h : 0 ≤ q) : 0 ≤ jsRound q := by
  have h2 : ((0 : ℤ) : ℚ) ≤ q + 1 / 2 := by push_cast; linarith
  exact Int.le_floor.mpr h2

theorem jsRound_le_int {q : ℚ} {B : ℤ} (h : q ≤ (B : ℚ)) : jsRound q ≤ B := by
  have h2 : q + 1 / 2 < ((B + 1 : ℤ) : ℚ) := by push_cast; linarith
  have h3 := Int.floor_lt.mpr h2
  unfold jsRound
  omega

theorem jsRound_zero : jsRound 0 = 0 := by
  unfold jsRound
  rw [zero_add]
  rw [Int.floor_eq_zero_iff]
  constructor <;> norm_num

theorem centerAxis_bounds (pos : ℚ) (view world : ℤ) :
    0 ≤ centerAxis pos view world ∧
      centerAxis pos view world ≤ max 0 (world - view) ∧
      (world < view → centerAxis pos view world = 0) := by
  refine ⟨jsRound_nonneg (le_max_left _ _), ?_, ?_⟩
  · apply jsRound_le_int
    apply max_le
    · push_cast
      exact le_max_left _ _
    · apply le_trans (min_le_right _ _)
      push_cast
      exact le_max_right _ _
  · intro h
    have hlt : ((world : ℚ) - (view : ℚ)) ≤ 0 := by
      have h2 : (world : ℚ) < (view : ℚ) := by exact_mod_cast h
      linarith
    have hmin : min (pos - (view : ℚ) / 2) ((world : ℚ) - (view : ℚ)) ≤ 0 :=
      le_trans (min_le_right _ _) hlt
    unfold centerAxis
    rw [max_eq_left hmin]
    exact jsRound_zero

theorem getD_getD {α : Type} (o : Option α) (a : α) :
    o.getD (o.getD a) = o.getD a := by
  cases o <;> rfl

theorem assignPlayer_idem (p : Player) (u : PlayerUpdate) :
    assignPlayer (assignPlayer p u) u = assignPlayer p u := by
  unfold assignPlayer
  cases hf : u.facing <;> simp [getD_getD, hf]

theorem lookupStr_removeStr_self {α : Type} (l : List (String × α)) (k : String) :
    lookupStr (removeStr l k) k = none := by
  induction l with
  | nil => rfl
  | cons hd tl ih =>
    obtain ⟨k0, v0⟩ := hd
    by_cases h : k0 = k
    · simp [removeStr, h, ih]
    · simp [removeStr, lookupStr, h, ih]

theorem lookupStr_insertStr_ne {α : Type} (l : List (String × α)) (k0 k : String)
    (v : α) (hne : k0 ≠ k) :
    lookupStr (insertStr l k0 v) k = lookupStr l k := by
  induction l with
  | nil => simp [insertStr, lookupStr, hne]
  | cons hd tl ih =>
    obtain ⟨k1, v1⟩ := hd
    by_cases h : k1 = k0
    · subst h
      simp [insertStr, lookupStr, hne]
    · simp [insertStr, lookupStr, h, ih]

theorem lookupRef_cons_isSome (h : List (ℕ × Player)) (r0 : ℕ) (q : Player)
    (r : ℕ) (hh : (lookupRef h r).isSome = true) :
    (lookupRef ((r0, q) :: h) r).isSome = true := by
  by_cases e : r0 = r <;> simp [lookupRef, e, hh]

theorem heapAssign_isSome (h : List (ℕ × Player)) (r0 : ℕ) (p : Player) (r : ℕ) :
    (lookupRef (heapAssign h r0 p) r).isSome = (lookupRef h r).isSome := by
  induction h with
  | nil => rfl
  | cons hd tl ih =>
    obtain ⟨r1, p1⟩ := hd
    by_cases e1 : r1 = r0
    · subst e1
      by_cases e2 : r1 = r
      · subst e2
        simp [heapAssign, lookupRef]
      · simp [heapAssign, lookupRef, e2]
    · by_cases e2 : r1 = r
      · subst e2
        simp [heapAssign, lookupRef, e1]
      · simp [heapAssign, lookupRef, e1, e2, ih]

theorem heapAssign_self (h : List (ℕ × Player)) (r : ℕ) (p : Player)
    (hh : (lookupRef h r).isSome = true) :
    lookupRef (heapAssign h r p) r = some p := by
  induction h with
  | nil => simp [lookupRef] at hh
  | cons hd tl ih =>
    obtain ⟨r1, p1⟩ := hd
    by_cases e : r1 = r
    · simp [heapAssign, lookupRef, e]
    · simp [heapAssign, lookupRef, e] at hh ⊢
      exact ih hh

theorem heapAssign_ne (h : List (ℕ × Player)) (r0 r : ℕ) (p : Player)
    (hne : r0 ≠ r) :
    lookupRef (heapAssign h r0 p) r = lookupRef h r := by
  induction h with
  | nil => rfl
  | cons hd tl ih =>
    obtain ⟨r1, p1⟩ := hd
    by_cases e1 : r1 = r0
    · subst e1
      simp [heapAssign, lookupRef, hne]
    · simp [heapAssign, lookupRef, e1, ih]

theorem allocPlayers_heap_mono (l : List (String × Player))
    (heap : List (ℕ × Player)) (next : ℕ) (r : ℕ)
    (hh : (lookupRef heap r).isSome = true) :
    (lookupRef (allocPlayers heap next l).1 r).isSome = true := by
  induction l generalizing heap next with
  | nil => simpa [allocPlayers] using hh
  | cons hd rest ih =>
    obtain ⟨pid, p⟩ := hd
    simp only [allocPlayers]
    exact ih ((next, p) :: heap) (next + 1) (lookupRef_cons_isSome heap next p r hh)

theorem allocPlayers_table_heap (l : List (String × Player))
    (heap : List (ℕ × Player)) (next : ℕ) (pid : String) (r : ℕ)
    (hl : lookupStr (allocPlayers heap next l).2.2 pid = some r) :
    (lookupRef (allocPlayers heap next l).1 r).isSome = true := by
  induction l generalizing heap next with
  | nil => simp [allocPlayers, lookupStr] at hl
  | cons hd rest ih =>
    obtain ⟨pid0, p⟩ := hd
    simp only [allocPlayers, lookupStr] at hl ⊢
    by_cases e : pid0 = pid
    · rw [if_pos e] at hl
      have hr : next = r := by injection hl
      subst hr
      exact allocPlayers_heap_mono rest ((next, p) :: heap) (next + 1) next
        (by simp [lookupRef])
    · rw [if_neg e] at hl
      exact ih ((next, p) :: heap) (next + 1) hl

theorem centerCameraOnPlayer_shape (s : GameState) :
    ∃ c, (centerCameraOnPlayer s).1 = { s with camera := c } := by
  obtain ⟨hp0, n, pid0, ps, avs, mp, cam, wl, pd⟩ := s
  cases mp with
  | none => exact ⟨cam, rfl⟩
  | some r =>
    cases hl : lookupRef hp0 r with
    | none =>
      refine ⟨cam, ?_⟩
      simp only [centerCameraOnPlayer, hl]
    | some p =>
      refine ⟨centerCameraPure p cam, ?_⟩
      simp only [centerCameraOnPlayer, hl]

theorem checkAndCenterCamera_shape (s : GameState) :
    ∃ c, (checkAndCenterCamera s).1 = { s with camera := c } := by
  unfold checkAndCenterCamera
  split
  · exact centerCameraOnPlayer_shape s
  · exact ⟨s.camera, rfl⟩

theorem playersMovedStep_shape (s : GameState) (kv : String × PlayerUpdate) :
    ∃ H, playersMovedStep s kv = { s with heap := H } := by
  cases h1 : lookupStr s.players kv.1 with
  | none =>
    refine ⟨s.heap, ?_⟩
    simp only [playersMovedStep, h1]
  | some r =>
    cases h2 : lookupRef s.heap r with
    | none =>
      refine ⟨s.heap, ?_⟩
      simp only [playersMovedStep, h1, h2]
    | some p =>
      refine ⟨heapAssign s.heap r (assignPlayer p kv.2), ?_⟩
      simp only [playersMovedStep, h1, h2]

theorem foldl_playersMovedStep_shape (msg : List (String × PlayerUpdate))
    (s : GameState) :
    ∃ H, msg.foldl playersMovedStep s = { s with heap := H } := by
  induction msg generalizing s with
  | nil => exact ⟨s.heap, rfl⟩
  | cons kv rest ih =>
    obtain ⟨H1, h1⟩ := playersMovedStep_shape s kv
    obtain ⟨H2, h2⟩ := ih (playersMovedStep s kv)
    refine ⟨({ playersMovedStep s kv with heap := H2 } : GameState).heap, ?_⟩
    simp only [List.foldl_cons]
    rw [h2, h1]

theorem playersMovedStep_isSome (s : GameState) (kv : String × PlayerUpdate)
    (r : ℕ) :
    (lookupRef (playersMovedStep s kv).heap r).isSome =
      (lookupRef s.heap r).isSome := by
  cases h1 : lookupStr s.players kv.1 with
  | none => simp only [playersMovedStep, h1]
  | some r0 =>
    cases h2 : lookupRef s.heap r0 with
    | none => simp only [playersMovedStep, h1, h2]
    | some p =>
      simp only [playersMovedStep, h1, h2]
      exact heapAssign_isSome s.heap r0 (assignPlayer p kv.2) r

theorem foldl_playersMovedStep_isSome (msg : List (String × PlayerUpdate))
    (s : GameState) (r : ℕ) :
    (lookupRef (msg.foldl playersMovedStep s).heap r).isSome =
      (lookupRef s.heap r).isSome := by
  induction msg generalizing s with
  | nil => rfl
  | cons kv rest ih =>
    simp only [List.foldl_cons]
    rw [ih (playersMovedStep s kv), playersMovedStep_isSome s kv r]

theorem handlePlayersMoved_shape (s : GameState)
    (msg : List (String × PlayerUpdate)) :
    ∃ H c, (handlePlayersMoved s msg).1 =
      { s with heap := H, camera := c } := by
  obtain ⟨hp0, n, pid0, ps, avs, mp, cam, wl, pd⟩ := s
  obtain ⟨H1, h1⟩ :=
    foldl_playersMovedStep_shape msg ⟨hp0, n, pid0, ps, avs, mp, cam, wl, pd⟩
  cases mp with
  | none =>
    refine ⟨H1, cam, ?_⟩
    simp only [handlePlayersMoved, h1]
  | some r =>
    cases pid0 with
    | none =>
      refine ⟨H1, cam, ?_⟩
      simp only [handlePlayersMoved, h1]
    | some pid =>
      cases hu : lookupStr msg pid with
      | none =>
        refine ⟨H1, cam, ?_⟩
        simp only [handlePlayersMoved, h1, hu]
      | some u =>
        cases hq : lookupRef H1 r with
        | none =>
          refine ⟨H1, cam, ?_⟩
          simp only [handlePlayersMoved, h1, hu, hq]
        | some q =>
          obtain ⟨c, hc⟩ := centerCameraOnPlayer_shape
            ⟨heapAssign H1 r (assignPlayer q u), n, some pid, ps, avs,
              some r, cam, wl, pd⟩
          refine ⟨heapAssign H1 r (assignPlayer q u), c, ?_⟩
          simp only [handlePlayersMoved, h1, hu, hq]
          exact hc

theorem handlePlayersMoved_isSome (s : GameState)
    (msg : List (String × PlayerUpdate)) (r : ℕ) :
    (lookupRef (handlePlayersMoved s msg).1.heap r).isSome =
      (lookupRef s.heap r).isSome := by
  obtain ⟨hp0, n, pid0, ps, avs, mp, cam, wl, pd⟩ := s
  obtain ⟨H1, h1⟩ :=
    foldl_playersMovedStep_shape msg ⟨hp0, n, pid0, ps, avs, mp, cam, wl, pd⟩
  have hH1 : (lookupRef H1 r).isSome = (lookupRef hp0 r).isSome := by
    have h2 :=
      foldl_playersMovedStep_isSome msg ⟨hp0, n, pid0, ps, avs, mp, cam, wl, pd⟩ r
    rw [h1] at h2
    exact h2
  cases mp with
  | none =>
    simp only [handlePlayersMoved, h1]
    exact hH1
  | some r0 =>
    cases pid0 with
    | none =>
      simp only [handlePlayersMoved, h1]
      exact hH1
    | some pid =>
      cases hu : lookupStr msg pid with
      | none =>
        simp only [handlePlayersMoved, h1, hu]
        exact hH1
      | some u =>
        cases hq : lookupRef H1 r0 with
        | none =>
          simp only [handlePlayersMoved, h1, hu, hq]
          exact hH1
        | some q =>
          obtain ⟨c, hc⟩ := centerCameraOnPlayer_shape
            ⟨heapAssign H1 r0 (assignPlayer q u), n, some pid, ps, avs,
              some r0, cam, wl, pd⟩
          simp only [handlePlayersMoved, h1, hu, hq]
          rw [hc]
          show (lookupRef (heapAssign H1 r0 (assignPlayer q u)) r).isSome =
            (lookupRef hp0 r).isSome
          rw [heapAssign_isSome]
          exact hH1

theorem centerCameraOnPlayer_eq (s : GameState) (r : ℕ) (q : Player)
    (hm : s.myPlayer = some r) (hq : lookupRef s.heap r = some q) :
    centerCameraOnPlayer s =
      ({ s with camera := centerCameraPure q s.camera }, true) := by
  simp only [centerCameraOnPlayer, hm, hq]

theorem step_worldLoad_shape (s : GameState) :
    ∃ c, (step s .worldImageLoad).1 =
      { s with worldImageLoaded := true, camera := c } := by
  obtain ⟨c, hc⟩ := checkAndCenterCamera_shape { s with worldImageLoaded := true }
  refine ⟨c, ?_⟩
  simp only [step]
  rw [hc]

theorem step_resize_shape (s : GameState) (w h : ℤ) :
    ∃ c, (step s (.resize w h)).1 = { s with camera := c } := by
  obtain ⟨hp0, n, pid0, ps, avs, mp, cam, wl, pd⟩ := s
  cases mp with
  | none => exact ⟨⟨cam.x, cam.y, w, h⟩, rfl⟩
  | some r =>
    obtain ⟨c, hc⟩ := centerCameraOnPlayer_shape
      ⟨hp0, n, pid0, ps, avs, some r, ⟨cam.x, cam.y, w, h⟩, wl, pd⟩
    refine ⟨c, ?_⟩
    simp only [step]
    exact hc

theorem step_join_shape (s : GameState) (pid : String)
    (ps : List (String × Player)) (avs : List (String × Avatar)) (err : String) :
    ∃ c, (step s (.serverMsg (.joinGame true pid ps avs err))).1 =
      { s with
        heap := (allocPlayers s.heap s.nextRef ps).1
        nextRef := (allocPlayers s.heap s.nextRef ps).2.1
        playerId := some pid
        players := (allocPlayers s.heap s.nextRef ps).2.2
        avatars := avs
        myPlayer := lookupStr (allocPlayers s.heap s.nextRef ps).2.2 pid
        camera := c
        playerDataReceived := true } := by
  obtain ⟨c, hc⟩ := checkAndCenterCamera_shape
    { s with
      heap := (allocPlayers s.heap s.nextRef ps).1
      nextRef := (allocPlayers s.heap s.nextRef ps).2.1
      playerId := some pid
      players := (allocPlayers s.heap s.nextRef ps).2.2
      avatars := avs
      myPlayer := lookupStr (allocPlayers s.heap s.nextRef ps).2.2 pid
      playerDataReceived := true }
  refine ⟨c, ?_⟩
  show (checkAndCenterCamera
    { s with
      heap := (allocPlayers s.heap s.nextRef ps).1
      nextRef := (allocPlayers s.heap s.nextRef ps).2.1
      playerId := some pid
      players := (allocPlayers s.heap s.nextRef ps).2.2
      avatars := avs
      myPlayer := lookupStr (allocPlayers s.heap s.nextRef ps).2.2 pid
      playerDataReceived := true }).1 = _
  rw [hc]

theorem wfMy_initState (w h : ℤ) : WFMy (initState w h) := by
  intro r hr
  exact absurd hr (by simp [initState])

theorem wfMy_step (s : GameState) (e : Event) (hs : WFMy s) :
    WFMy (step s e).1 := by
  cases e with
  | worldImageLoad =>
    obtain ⟨c, hc⟩ := step_worldLoad_shape s
    rw [hc]
    intro r hr
    exact hs r hr
  | resize w h =>
    obtain ⟨c, hc⟩ := step_resize_shape s w h
    rw [hc]
    intro r hr
    exact hs r hr
  | serverMsg m =>
    cases m with
    | joinGame success pid ps avs err =>
      cases success with
      | false =>
        intro r hr
        exact hs r hr
      | true =>
        obtain ⟨c, hc⟩ := step_join_shape s pid ps avs err
        rw [hc]
        intro r hr
        exact allocPlayers_table_heap ps s.heap s.nextRef pid r hr
    | playerJoined p av =>
      intro r hr
      exact lookupRef_cons_isSome s.heap s.nextRef p r (hs r hr)
    | playersMoved msg =>
      intro r hr
      obtain ⟨H, c, hsh⟩ := handlePlayersMoved_shape s msg
      have hr2 : s.myPlayer = some r := by
        have hr3 : (handlePlayersMoved s msg).1.myPlayer = some r := hr
        rw [hsh] at hr3
        exact hr3
      have hgoal : (lookupRef (handlePlayersMoved s msg).1.heap r).isSome = true := by
        rw [handlePlayersMoved_isSome s msg r]
        exact hs r hr2
      exact hgoal
    | playerLeft pid =>
      intro r hr
      exact hs r hr
    | other => exact hs

theorem wfMy_run (s : GameState) (evs : List Event) (hs : WFMy s) :
    WFMy (run s evs) := by
  induction evs generalizing s with
  | nil => exact hs
  | cons e rest ih => exact ih (step s e).1 (wfMy_step s e hs)

theorem wfMy_reachable (s : GameState) (h : Reachable s) : WFMy s := by
  obtain ⟨w, ht, evs, hrun⟩ := h
  rw [← hrun]
  exact wfMy_run (initState w ht) evs (wfMy_initState w ht)

theorem checkAndCenterCamera_flags (s : GameState)
    (h : (checkAndCenterCamera s).2 = true) :
    s.worldImageLoaded = true ∧ s.playerDataReceived = true := by
  unfold checkAndCenterCamera at h
  by_cases hc : (s.worldImageLoaded && s.playerDataReceived && s.myPlayer.isSome) = true
  · simp only [Bool.and_eq_true] at hc
    exact ⟨hc.1.1, hc.1.2⟩
  · rw [if_neg hc] at h
    simp at h

theorem checkAndCenterCamera_runs (s : GameState) (r : ℕ)
    (hw : s.worldImageLoaded = true) (hp : s.playerDataReceived = true)
    (hm : s.myPlayer = some r) (hh : (lookupRef s.heap r).isSome = true) :
    (checkAndCenterCamera s).2 = true := by
  cases hl : lookupRef s.heap r with
  | none =>
    rw [hl] at hh
    exact absurd hh (by simp)
  | some p =>
    unfold checkAndCenterCamera
    rw [if_pos (by simp [hw, hp, hm])]
    rw [centerCameraOnPlayer_eq s r p hm hl]

theorem foldl_assign_keeps {α β : Type} (f : Player → β)
    (g : PlayerUpdate → Option α)
    (hfg : ∀ p u, g u = none → f (assignPlayer p u) = f p)
    (p : Player) (us : List PlayerUpdate) (h : ∀ u ∈ us, g u = none) :
    f (us.foldl assignPlayer p) = f p := by
  induction us generalizing p with
  | nil => rfl
  | cons u rest ih =>
    simp only [List.foldl_cons]
    rw [ih (assignPlayer p u) (fun v hv => h v (List.mem_cons_of_mem u hv)),
      hfg p u (h u (List.mem_cons_self u rest))]

theorem handlePlayersMoved_single_heap (s : GameState) (pid : String)
    (u : PlayerUpdate) (r : ℕ) (p : Player)
    (ht : lookupStr s.players pid = some r)
    (hp : lookupRef s.heap r = some p) :
    lookupRef (handlePlayersMoved s [(pid, u)]).1.heap r =
      some (assignPlayer p u) := by
  have hstep : playersMovedStep s (pid, u) =
      { s with heap := heapAssign s.heap r (assignPlayer p u) } := by
    simp only [playersMovedStep, ht, hp]
  have hfold : ([(pid, u)] : List (String × PlayerUpdate)).foldl playersMovedStep s =
      { s with heap := heapAssign s.heap r (assignPlayer p u) } := by
    simp only [List.foldl_cons, List.foldl_nil, hstep]
  have hs1 : lookupRef (heapAssign s.heap r (assignPlayer p u)) r =
      some (assignPlayer p u) :=
    heapAssign_self s.heap r (assignPlayer p u) (by rw [hp]; rfl)
  cases hmp : s.myPlayer with
  | none =>
    simp only [handlePlayersMoved, hfold, hmp]
    exact hs1
  | some r2 =>
    cases hpid : s.playerId with
    | none =>
      simp only [handlePlayersMoved, hfold, hmp, hpid]
      exact hs1
    | some pid2 =>
      by_cases he : pid = pid2
      · subst he
        have hl : lookupStr [(pid, u)] pid = some u := by simp [lookupStr]
        cases hq : lookupRef (heapAssign s.heap r (assignPlayer p u)) r2 with
        | none =>
          simp only [handlePlayersMoved, hfold, hmp, hpid, hl, hq]
          exact hs1
        | some q =>
          obtain ⟨c, hc⟩ := centerCameraOnPlayer_shape
            { s with heap := heapAssign (heapAssign s.heap r (assignPlayer p u)) r2 (assignPlayer q u), playerId := some pid, myPlayer := some r2 }
          simp only [handlePlayersMoved, hfold, hmp, hpid, hl, hq]
          show lookupRef (centerCameraOnPlayer
            { s with heap := heapAssign (heapAssign s.heap r (assignPlayer p u)) r2 (assignPlayer q u), playerId := some pid, myPlayer := some r2 }).1.heap r = some (assignPlayer p u)
          rw [hc]
          show lookupRef
              (heapAssign (heapAssign s.heap r (assignPlayer p u)) r2
                (assignPlayer q u)) r = some (assignPlayer p u)
          by_cases hr2 : r2 = r
          · subst hr2
            have hqv : q = assignPlayer p u := by
              have h2 : some q = some (assignPlayer p u) := by rw [← hq, hs1]
              injection h2
            rw [heapAssign_self _ _ _ (by rw [hq]; rfl), hqv, assignPlayer_idem]
          · rw [heapAssign_ne _ _ _ _ hr2]
            exact hs1
      · have hl : lookupStr [(pid, u)] pid2 = none := by
          simp [lookupStr, he]
        simp only [handlePlayersMoved, hfold, hmp, hpid, hl]
        exact hs1

theorem attemptsAfterCloses_min (n : ℕ) : attemptsAfterCloses n = min n 5 := by
  induction n with
  | zero => rfl
  | succ n ih =>
    show (attemptReconnect (attemptsAfterCloses n)).attempts = min (n + 1) 5
    rw [ih]
    unfold attemptReconnect maxReconnectAttempts
    by_cases h : min n 5 < 5
    · rw [if_pos h]
      show min n 5 + 1 = min (n + 1) 5
      omega
    · rw [if_neg h]
      show min n 5 = min (n + 1) 5
      omega

/-! ## Claim theorems -/

/-- C1: for every actor position and every viewport size, the camera produced
by the centering operation satisfies `0 ≤ camera.x ≤ max(0, worldWidth -
viewportWidth)` and the analogous y bound, and on an axis where the viewport
exceeds the world the camera position is 0. -/
theorem camera_center_in_bounds (p : Player) (c : Camera) :
    (0 ≤ (centerCameraPure p c).x ∧
       (centerCameraPure p c).x ≤ ((max 0 (worldWidth - c.width) : ℤ) : ℚ) ∧
       (worldWidth < c.width → (centerCameraPure p c).x = 0)) ∧
    (0 ≤ (centerCameraPure p c).y ∧
       (centerCameraPure p c).y ≤ ((max 0 (worldHeight - c.height) : ℤ) : ℚ) ∧
       (worldHeight < c.height → (centerCameraPure p c).y = 0)) := by
  obtain ⟨hx0, hxB, hx1⟩ := centerAxis_bounds p.x c.width worldWidth
  obtain ⟨hy0, hyB, hy1⟩ := centerAxis_bounds p.y c.height worldHeight
  refine ⟨⟨?_, ?_, ?_⟩, ⟨?_, ?_, ?_⟩⟩
  · show (0 : ℚ) ≤ ((centerAxis p.x c.width worldWidth : ℤ) : ℚ)
    exact_mod_cast hx0
  · show ((centerAxis p.x c.width worldWidth : ℤ) : ℚ) ≤ _
    exact_mod_cast hxB
  · intro h
    have h2 := hx1 h
    simp [centerCameraPure, h2]
  · show (0 : ℚ) ≤ ((centerAxis p.y c.height worldHeight : ℤ) : ℚ)
    exact_mod_cast hy0
  · show ((centerAxis p.y c.height worldHeight : ℤ) : ℚ) ≤ _
    exact_mod_cast hyB
  · intro h
    have h2 := hy1 h
    simp [centerCameraPure, h2]

/-- Witness for `camera_center_in_bounds` at a concrete actor and viewport
(viewport wider than the world, so the clamped x axis lands on 0). -/
theorem camera_center_in_bounds_witness :
    worldWidth < (3000 : ℤ) ∧
      (centerCameraPure ⟨"p1", 2040, 10, some "south", 0, false, "u", "a"⟩
          ⟨0, 0, 3000, 600⟩).x = 0 := by
  refine ⟨by decide, ?_⟩
  exact ((camera_center_in_bounds ⟨"p1", 2040, 10, some "south", 0, false, "u", "a"⟩
    ⟨0, 0, 3000, 600⟩).1.2.2 (by decide))

/-- C8: with world 2048 by 2048 and viewport 800 by 600, centering on an actor
at (2040, 10) yields camera position exactly (1248, 0). -/
theorem camera_center_scenario :
    (centerCameraPure ⟨"p1", 2040, 10, some "south", 0, false, "u", "a"⟩
        ⟨0, 0, 800, 600⟩).x = 1248 ∧
      (centerCameraPure ⟨"p1", 2040, 10, some "south", 0, false, "u", "a"⟩
        ⟨0, 0, 800, 600⟩).y = 0 := by
  constructor <;>
    norm_num [centerCameraPure, centerAxis, jsRound, worldWidth, worldHeight]

/-- C3 amended: centering through the gated join path (`checkAndCenterCamera`,
reached from the backdrop `onload` callback and from the join-success
handler) never executes before both the backdrop-ready and the roster-ready
conditions hold, and when the join response precedes the backdrop the
centering executes exactly at the step where the backdrop becomes ready (no
missed centering).  The claim as stated is false for ALL centering: the
resize and players_moved paths center whenever a local player exists, even
before the backdrop is ready — see the counterexample. -/
theorem centering_gated_on_join_path (s : GameState) (pid : String)
    (ps : List (String × Player)) (avs : List (String × Avatar)) (err : String) :
    ((step s .worldImageLoad).2.centered = true → s.playerDataReceived = true) ∧
    ((step s (.serverMsg (.joinGame true pid ps avs err))).2.centered = true →
      s.worldImageLoaded = true) ∧
    (Reachable s → s.playerDataReceived = true → s.worldImageLoaded = false →
      ∀ r, s.myPlayer = some r →
        (step s .worldImageLoad).2.centered = true) := by
  refine ⟨?_, ?_, ?_⟩
  · intro h
    have h2 : (checkAndCenterCamera { s with worldImageLoaded := true }).2 = true := h
    exact (checkAndCenterCamera_flags _ h2).2
  · intro h
    have h2 : (checkAndCenterCamera
        { s with
          heap := (allocPlayers s.heap s.nextRef ps).1
          nextRef := (allocPlayers s.heap s.nextRef ps).2.1
          playerId := some pid
          players := (allocPlayers s.heap s.nextRef ps).2.2
          avatars := avs
          myPlayer := lookupStr (allocPlayers s.heap s.nextRef ps).2.2 pid
          playerDataReceived := true }).2 = true := h
    exact (checkAndCenterCamera_flags _ h2).1
  · intro hreach hp hw r hm
    have hwf := wfMy_reachable s hreach
    have hh : (lookupRef s.heap r).isSome = true := hwf r hm
    show (checkAndCenterCamera { s with worldImageLoaded := true }).2 = true
    exact checkAndCenterCamera_runs _ r rfl hp hm hh

/-- Witness for `centering_gated_on_join_path`: a join that precedes the
backdrop load exists, and at the later backdrop-ready step centering does
execute. -/
theorem centering_gated_on_join_path_witness :
    (step (run (initState 800 600)
        [.serverMsg (.joinGame true "p1" [("p1", samplePlayer)] [] "")])
      .worldImageLoad).2.centered = true := by
  exact (centering_gated_on_join_path
      (run (initState 800 600)
        [.serverMsg (.joinGame true "p1" [("p1", samplePlayer)] [] "")])
      "p1" [] [] "").2.2
    ⟨800, 600, [.serverMsg (.joinGame true "p1" [("p1", samplePlayer)] [] "")], rfl⟩
    (by decide) (by decide) 0 (by decide)

/-- Counterexample to C3 as stated: from a reachable state where the join
response has arrived but the backdrop image has not yet loaded, a window
resize executes camera centering (the resize handler consults only
`myPlayer`), i.e. centering runs before the backdrop-ready condition is
true. -/
theorem centering_gated_cex :
    (run (initState 800 600)
      [.serverMsg (.joinGame true "p1" [("p1", samplePlayer)] [] "")]).worldImageLoaded
      = false ∧
    (step (run (initState 800 600)
        [.serverMsg (.joinGame true "p1" [("p1", samplePlayer)] [] "")])
      (.resize 800 600)).2.centered = true := by
  constructor <;> decide

/-- C9: a join response with `success = false` leaves the whole client state
untouched — no actor records, no avatar entries, no local id, no camera
change — and surfaces the rejection reason on the error log. -/
theorem join_rejected_no_effect (s : GameState) (pid : String)
    (ps : List (String × Player)) (avs : List (String × Avatar)) (err : String) :
    handleServerMessage s (.joinGame false pid ps avs err) =
      (s, ⟨false, ["Join game failed: " ++ err]⟩) := rfl

/-- C2 amended: in the GameClient synchronizer (src/game.js), a players_moved
update is merged with Object.assign into the record the table already holds
(shown for a single-entry message: the record at the id's reference becomes
exactly the old record with the supplied fields overwritten), and over any
sequence of partial updates a field never supplied retains its prior value.
The claim as stated is false for the third script.js variant, whose
table-level Object.assign replaces the whole record: see the
counterexample. -/
theorem moved_update_merges (s : GameState) (pid : String) (u : PlayerUpdate)
    (r : ℕ) (p : Player) (us : List PlayerUpdate) :
    (lookupStr s.players pid = some r → lookupRef s.heap r = some p →
      lookupRef (handlePlayersMoved s [(pid, u)]).1.heap r =
        some (assignPlayer p u)) ∧
    ((∀ v ∈ us, v.id = none) → (us.foldl assignPlayer p).id = p.id) ∧
    ((∀ v ∈ us, v.x = none) → (us.foldl assignPlayer p).x = p.x) ∧
    ((∀ v ∈ us, v.y = none) → (us.foldl assignPlayer p).y = p.y) ∧
    ((∀ v ∈ us, v.facing = none) →
      (us.foldl assignPlayer p).facing = p.facing) ∧
    ((∀ v ∈ us, v.animationFrame = none) →
      (us.foldl assignPlayer p).animationFrame = p.animationFrame) ∧
    ((∀ v ∈ us, v.isMoving = none) →
      (us.foldl assignPlayer p).isMoving = p.isMoving) ∧
    ((∀ v ∈ us, v.username = none) →
      (us.foldl assignPlayer p).username = p.username) ∧
    ((∀ v ∈ us, v.avatar = none) →
      (us.foldl assignPlayer p).avatar = p.avatar) := by
  refine ⟨fun ht hp => handlePlayersMoved_single_heap s pid u r p ht hp,
    ?_, ?_, ?_, ?_, ?_, ?_, ?_, ?_⟩
  · exact foldl_assign_keeps Player.id PlayerUpdate.id
      (fun p0 u0 hu => by simp [assignPlayer, hu]) p us
  · exact foldl_assign_keeps Player.x PlayerUpdate.x
      (fun p0 u0 hu => by simp [assignPlayer, hu]) p us
  · exact foldl_assign_keeps Player.y PlayerUpdate.y
      (fun p0 u0 hu => by simp [assignPlayer, hu]) p us
  · exact foldl_assign_keeps Player.facing PlayerUpdate.facing
      (fun p0 u0 hu => by simp [assignPlayer, hu]) p us
  · exact foldl_assign_keeps Player.animationFrame PlayerUpdate.animationFrame
      (fun p0 u0 hu => by simp [assignPlayer, hu]) p us
  · exact foldl_assign_keeps Player.isMoving PlayerUpdate.isMoving
      (fun p0 u0 hu => by simp [assignPlayer, hu]) p us
  · exact foldl_assign_keeps Player.username PlayerUpdate.username
      (fun p0 u0 hu => by simp [assignPlayer, hu]) p us
  · exact foldl_assign_keeps Player.avatar PlayerUpdate.avatar
      (fun p0 u0 hu => by simp [assignPlayer, hu]) p us

/-- Witness for `moved_update_merges`: a post-join state, a position-only
update; the stored record keeps every omitted field (the username conjunct is
exercised explicitly). -/
theorem moved_update_merges_witness :
    lookupRef (handlePlayersMoved
        (run (initState 800 600)
          [.serverMsg (.joinGame true "p1" [("p1", samplePlayer)] [] "")])
        [("p1", ⟨none, some 2040, none, none, none, none, none, none⟩)]).1.heap 0 =
      some (assignPlayer samplePlayer
        ⟨none, some 2040, none, none, none, none, none, none⟩) ∧
    (([⟨none, some 2040, none, none, none, none, none, none⟩] :
        List PlayerUpdate).foldl assignPlayer samplePlayer).username =
      samplePlayer.username := by
  constructor
  · exact (moved_update_merges
      (run (initState 800 600)
        [.serverMsg (.joinGame true "p1" [("p1", samplePlayer)] [] "")])
      "p1" ⟨none, some 2040, none, none, none, none, none, none⟩ 0 samplePlayer
      []).1 (by decide) (by decide)
  · exact (moved_update_merges (initState 0 0) "p1"
      ⟨none, some 2040, none, none, none, none, none, none⟩ 0 samplePlayer
      [⟨none, some 2040, none, none, none, none, none, none⟩]).2.2.2.2.2.2.2.1
      (by decide)

/-- Counterexample to C2 as stated: the third client variant
(src/script.js line 551) performs Object.assign at the TABLE level on
players_moved, rebinding the id to the partial update object itself, so the
username supplied at join is lost instead of retained. -/
theorem moved_update_merges_cex :
    lookupStr (objAssignTable
        [("p1", ⟨some "p1", some 100, some 100, some "south", some 0,
          some false, some "Bob", some "av"⟩)]
        [("p1", ⟨none, some 5, none, none, none, none, none, none⟩)]) "p1" =
      some ⟨none, some 5, none, none, none, none, none, none⟩ := by decide

/-- C5 amended: after ActorLeft(id) the actor table no longer contains the id,
and a subsequent ActorsMoved naming that id never re-creates a table entry
(no resurrection); when the id is not the local players id, or no local
record reference exists, the whole state is unchanged.  The claim as stated
(always a no-op) is false when the id IS the local id: the detached myPlayer
record is still mutated and the camera recentered — see the
counterexample. -/
theorem actor_left_no_resurrection (s : GameState) (pid : String)
    (u : PlayerUpdate) :
    lookupStr (handlePlayerLeft s pid).players pid = none ∧
    (handlePlayersMoved (handlePlayerLeft s pid) [(pid, u)]).1.players =
      (handlePlayerLeft s pid).players ∧
    (s.playerId ≠ some pid ∨ s.myPlayer = none →
      (handlePlayersMoved (handlePlayerLeft s pid) [(pid, u)]).1 =
        handlePlayerLeft s pid) := by
  have hlook : lookupStr (handlePlayerLeft s pid).players pid = none :=
    lookupStr_removeStr_self s.players pid
  refine ⟨hlook, ?_, ?_⟩
  · obtain ⟨H, c, hsh⟩ :=
      handlePlayersMoved_shape (handlePlayerLeft s pid) [(pid, u)]
    rw [hsh]
  · intro hdisj
    have hstep : playersMovedStep (handlePlayerLeft s pid) (pid, u) =
        handlePlayerLeft s pid := by
      simp only [playersMovedStep, hlook]
    have hfold : ([(pid, u)] : List (String × PlayerUpdate)).foldl
        playersMovedStep (handlePlayerLeft s pid) = handlePlayerLeft s pid := by
      simp only [List.foldl_cons, List.foldl_nil, hstep]
    cases hmp : s.myPlayer with
    | none =>
      have hmp2 : (handlePlayerLeft s pid).myPlayer = none := hmp
      simp only [handlePlayersMoved, hfold, hmp2]
    | some r =>
      rcases hdisj with hne | habs
      · cases hpid : s.playerId with
        | none =>
          have hmp2 : (handlePlayerLeft s pid).myPlayer = some r := hmp
          have hpid2 : (handlePlayerLeft s pid).playerId = none := hpid
          simp only [handlePlayersMoved, hfold, hmp2, hpid2]
        | some pid2 =>
          have hne2 : ¬(pid = pid2) := fun he => hne (by rw [hpid, he])
          have hlmsg : lookupStr [(pid, u)] pid2 = none := by
            simp [lookupStr, hne2]
          have hmp2 : (handlePlayerLeft s pid).myPlayer = some r := hmp
          have hpid2 : (handlePlayerLeft s pid).playerId = some pid2 := hpid
          simp only [handlePlayersMoved, hfold, hmp2, hpid2, hlmsg]
      · rw [hmp] at habs
        exact absurd habs (by simp)

/-- Witness for `actor_left_no_resurrection`: after a join as "p1", removing
"p2" and then receiving a movement update for "p2" leaves the table without
"p2" and the whole state unchanged. -/
theorem actor_left_no_resurrection_witness :
    lookupStr (handlePlayerLeft
        (run (initState 800 600)
          [.serverMsg (.joinGame true "p1" [("p1", samplePlayer)] [] "")])
        "p2").players "p2" = none ∧
    (handlePlayersMoved (handlePlayerLeft
        (run (initState 800 600)
          [.serverMsg (.joinGame true "p1" [("p1", samplePlayer)] [] "")])
        "p2") [("p2", ⟨none, some 5, none, none, none, none, none, none⟩)]).1 =
      handlePlayerLeft
        (run (initState 800 600)
          [.serverMsg (.joinGame true "p1" [("p1", samplePlayer)] [] "")])
        "p2" := by
  constructor
  · exact (actor_left_no_resurrection
      (run (initState 800 600)
        [.serverMsg (.joinGame true "p1" [("p1", samplePlayer)] [] "")])
      "p2" ⟨none, some 5, none, none, none, none, none, none⟩).1
  · exact (actor_left_no_resurrection
      (run (initState 800 600)
        [.serverMsg (.joinGame true "p1" [("p1", samplePlayer)] [] "")])
      "p2" ⟨none, some 5, none, none, none, none, none, none⟩).2.2
      (Or.inl (by decide))

/-- Counterexample to C5 as stated: after the LOCAL actor "p1" is removed, a
players_moved naming "p1" is not a no-op — the handler still merges the
update into the detached myPlayer record (its heap cell changes from the
join-time record to the merged one) and reports that it recentered the
camera. -/
theorem actor_left_no_resurrection_cex :
    lookupRef (run (initState 800 600)
      [.serverMsg (.joinGame true "p1" [("p1", samplePlayer)] [] ""),
       .serverMsg (.playerLeft "p1"),
       .serverMsg (.playersMoved
         [("p1", ⟨none, some 2040, some 10, none, none, none, none, none⟩)])]).heap 0
      = some ⟨"p1", 2040, 10, some "south", 0, false, "Blankey", "av"⟩ ∧
    lookupRef (run (initState 800 600)
      [.serverMsg (.joinGame true "p1" [("p1", samplePlayer)] [] ""),
       .serverMsg (.playerLeft "p1")]).heap 0 = some samplePlayer ∧
    some (⟨"p1", 2040, 10, some "south", 0, false, "Blankey", "av"⟩ : Player) ≠
      some samplePlayer := by
  refine ⟨?_, ?_, ?_⟩ <;> decide

/-- C10 amended: after a successful join, myPlayer is exactly the actor-table
lookup of the local id (aliasing); every ActorsMoved preserves the aliasing
and a merge through it is visible both through the table entry and through
myPlayer (same reference, merged record); ActorJoined preserves the aliasing
when the joining id differs from the local id (for the local id it breaks it:
see the counterexample); ActorLeft removes the table entry without clearing
myPlayer; after such a removal an ActorsMoved naming the local id still
mutates the detached record and recenters the camera on it. -/
theorem local_ref_aliasing (s : GameState) (pid : String)
    (ps : List (String × Player)) (avs : List (String × Avatar))
    (msg : List (String × PlayerUpdate)) (pl : Player) (av : Avatar)
    (u : PlayerUpdate) (r : ℕ) (p : Player) :
    Aliased (handleJoinGameSuccess s pid ps avs).1 ∧
    (Aliased s → Aliased (handlePlayersMoved s msg).1) ∧
    (s.playerId = some pid → s.myPlayer = some r →
      lookupStr s.players pid = some r → lookupRef s.heap r = some p →
      (handlePlayersMoved s [(pid, u)]).1.myPlayer = some r ∧
        lookupStr (handlePlayersMoved s [(pid, u)]).1.players pid = some r ∧
        lookupRef (handlePlayersMoved s [(pid, u)]).1.heap r =
          some (assignPlayer p u)) ∧
    (Aliased s → pl.id ≠ pid → s.playerId = some pid →
      Aliased (handlePlayerJoined s pl av)) ∧
    (lookupStr (handlePlayerLeft s pid).players pid = none ∧
      (handlePlayerLeft s pid).myPlayer = s.myPlayer) ∧
    (s.playerId = some pid → s.myPlayer = some r →
      lookupStr s.players pid = none → lookupRef s.heap r = some p →
      lookupRef (handlePlayersMoved s [(pid, u)]).1.heap r =
          some (assignPlayer p u) ∧
        (handlePlayersMoved s [(pid, u)]).1.camera =
          centerCameraPure (assignPlayer p u) s.camera ∧
        (handlePlayersMoved s [(pid, u)]).2 = true) := by
  refine ⟨?_, ?_, ?_, ?_, ⟨lookupStr_removeStr_self s.players pid, rfl⟩, ?_⟩
  · obtain ⟨c, hc⟩ := checkAndCenterCamera_shape
      { s with
        heap := (allocPlayers s.heap s.nextRef ps).1
        nextRef := (allocPlayers s.heap s.nextRef ps).2.1
        playerId := some pid
        players := (allocPlayers s.heap s.nextRef ps).2.2
        avatars := avs
        myPlayer := lookupStr (allocPlayers s.heap s.nextRef ps).2.2 pid
        playerDataReceived := true }
    have hj : (handleJoinGameSuccess s pid ps avs).1 =
        { s with
          heap := (allocPlayers s.heap s.nextRef ps).1
          nextRef := (allocPlayers s.heap s.nextRef ps).2.1
          playerId := some pid
          players := (allocPlayers s.heap s.nextRef ps).2.2
          avatars := avs
          myPlayer := lookupStr (allocPlayers s.heap s.nextRef ps).2.2 pid
          playerDataReceived := true
          camera := c } := hc
    intro pid2 hpid2
    rw [hj] at hpid2 ⊢
    have hinj : some pid = some pid2 := hpid2
    have hpe : pid = pid2 := by injection hinj
    subst hpe
    rfl
  · intro hal
    obtain ⟨H, c, hsh⟩ := handlePlayersMoved_shape s msg
    intro pid2 hpid2
    rw [hsh] at hpid2 ⊢
    exact hal pid2 hpid2
  · intro h1 h2 h3 h4
    obtain ⟨H, c, hsh⟩ := handlePlayersMoved_shape s [(pid, u)]
    refine ⟨?_, ?_, handlePlayersMoved_single_heap s pid u r p h3 h4⟩
    · rw [hsh]
      exact h2
    · rw [hsh]
      exact h3
  · intro hal hne hpid pid2 hpid2
    have hpid2s : s.playerId = some pid2 := hpid2
    have hpe : pid2 = pid := by
      rw [hpid] at hpid2s
      have := hpid2s
      injection this with h0
      exact h0.symm
    subst hpe
    show s.myPlayer = lookupStr (insertStr s.players pl.id s.nextRef) pid2
    rw [lookupStr_insertStr_ne s.players pl.id pid2 s.nextRef hne]
    exact hal pid2 hpid2s
  · intro h1 h2 h3 h4
    have hstep : playersMovedStep s (pid, u) = s := by
      simp only [playersMovedStep, h3]
    have hfold : ([(pid, u)] : List (String × PlayerUpdate)).foldl
        playersMovedStep s = s := by
      simp only [List.foldl_cons, List.foldl_nil, hstep]
    have hl : lookupStr [(pid, u)] pid = some u := by simp [lookupStr]
    have hassign : lookupRef (heapAssign s.heap r (assignPlayer p u)) r =
        some (assignPlayer p u) :=
      heapAssign_self s.heap r (assignPlayer p u) (by rw [h4]; rfl)
    have hcc := centerCameraOnPlayer_eq
      { s with heap := heapAssign s.heap r (assignPlayer p u), playerId := some pid, myPlayer := some r }
      r (assignPlayer p u) rfl hassign
    have hmain : handlePlayersMoved s [(pid, u)] =
        ({ s with
            heap := heapAssign s.heap r (assignPlayer p u)
            camera := centerCameraPure (assignPlayer p u) s.camera }, true) := by
      simp only [handlePlayersMoved, hfold, h2, h1, hl, h4, hcc]
    rw [hmain]
    exact ⟨hassign, rfl, rfl⟩

/-- Witness for `local_ref_aliasing`: in the post-join state with the local
record detached by player_left, a movement update for the local id mutates
the detached record and recenters the camera. -/
theorem local_ref_aliasing_witness :
    lookupRef (handlePlayersMoved
        (run (initState 800 600)
          [.serverMsg (.joinGame true "p1" [("p1", samplePlayer)] [] ""),
           .serverMsg (.playerLeft "p1")])
        [("p1", ⟨none, some 2040, some 10, none, none, none, none, none⟩)]).1.heap 0 =
      some (assignPlayer samplePlayer
        ⟨none, some 2040, some 10, none, none, none, none, none⟩) ∧
    (handlePlayersMoved
        (run (initState 800 600)
          [.serverMsg (.joinGame true "p1" [("p1", samplePlayer)] [] ""),
           .serverMsg (.playerLeft "p1")])
        [("p1", ⟨none, some 2040, some 10, none, none, none, none, none⟩)]).2 =
      true := by
  have h := (local_ref_aliasing
      (run (initState 800 600)
        [.serverMsg (.joinGame true "p1" [("p1", samplePlayer)] [] ""),
         .serverMsg (.playerLeft "p1")])
      "p1" [] [] [] samplePlayer ⟨"av", []⟩
      ⟨none, some 2040, some 10, none, none, none, none, none⟩ 0
      samplePlayer).2.2.2.2.2
    (by decide) (by decide) (by decide) (by decide)
  exact ⟨h.1, h.2.2⟩

/-- Counterexample to C10 as stated: a player_joined carrying the LOCAL id
rebinds the table entry to a freshly allocated record while myPlayer still
holds the old reference, so the two no longer denote the same mutable
record — ActorJoined does not always preserve the aliasing. -/
theorem local_ref_aliasing_cex :
    (run (initState 800 600)
      [.serverMsg (.joinGame true "p1" [("p1", samplePlayer)] [] ""),
       .serverMsg (.playerJoined samplePlayer ⟨"av", []⟩)]).playerId =
      some "p1" ∧
    (run (initState 800 600)
      [.serverMsg (.joinGame true "p1" [("p1", samplePlayer)] [] ""),
       .serverMsg (.playerJoined samplePlayer ⟨"av", []⟩)]).myPlayer =
      some 0 ∧
    lookupStr (run (initState 800 600)
      [.serverMsg (.joinGame true "p1" [("p1", samplePlayer)] [] ""),
       .serverMsg (.playerJoined samplePlayer ⟨"av", []⟩)]).players "p1" =
      some 1 := by
  refine ⟨?_, ?_, ?_⟩ <;> decide

set_option synthInstance.maxSize 1024 in
/-- C4 amended: in the third client variant (src/script.js keyup listener),
releasing one of two held directions sends exactly one move command for the
remaining direction and no stop; releasing the last held direction sends
exactly one stop.  The claim as stated is false for the GameClient keyup
handler (src/game.js), which sends a stop on any movement-key release: see
the counterexample. -/
theorem keyup_two_held_release (ks : KeysPressed) (k k2 : ArrowKey) :
    (k ≠ k2 → ks.get k = true → ks.get k2 = true →
      (∀ j, j ≠ k → j ≠ k2 → ks.get j = false) →
      (handleKeyUpV2 true true ks k).2 = [OutMsg.move (toDirection k2)]) ∧
    (ks.get k = true → (∀ j, j ≠ k → ks.get j = false) →
      (handleKeyUpV2 true true ks k).2 = [OutMsg.stop]) := by
  revert k2 k ks
  decide

/-- Witness for `keyup_two_held_release`: holding ArrowUp and ArrowRight and
releasing ArrowRight sends exactly one move "up"; releasing a lone ArrowUp
sends exactly one stop. -/
theorem keyup_two_held_release_witness :
    (handleKeyUpV2 true true ⟨true, false, false, true⟩ ArrowKey.right).2 =
      [OutMsg.move "up"] ∧
    (handleKeyUpV2 true true ⟨true, false, false, false⟩ ArrowKey.up).2 =
      [OutMsg.stop] := by
  constructor
  · exact (keyup_two_held_release ⟨true, false, false, true⟩ .right .up).1
      (by decide) (by decide) (by decide) (by decide)
  · exact (keyup_two_held_release ⟨true, false, false, false⟩ .up .up).2
      (by decide) (by decide)

/-- Counterexample to C4 as stated: the GameClient keyup handler
(src/game.js lines 361-379) keeps no record of held keys and sends a stop on
the release of ANY movement key — also while another direction is still
physically held — instead of a move for the remaining direction. -/
theorem keyup_two_held_release_cex :
    handleKeyUpGame true "ArrowRight" = [OutMsg.stop] := by decide

/-- C6 amended: counting a close event that follows n prior consecutive
closes, for every n < 5 (i.e. for the first through the fifth consecutive
close) a retry is scheduled with delay 2000·(n+1) — attempt counter times
base delay — and these delays are strictly increasing; only from the sixth
consecutive close on (counter already at the maximum of 5) is nothing
scheduled and the terminal "max attempts" condition reported; a successful
open resets the counter to zero.  The claim as stated places the terminal
behaviour at the fifth close: see the counterexample. -/
theorem reconnect_backoff (n m a : ℕ) :
    (n < 5 → attemptReconnect (attemptsAfterCloses n) =
      ⟨n + 1, some (2000 * (n + 1)), false⟩) ∧
    (m < n → n < 5 → 2000 * (m + 1) < 2000 * (n + 1)) ∧
    (5 ≤ n → attemptReconnect (attemptsAfterCloses n) = ⟨5, none, true⟩) ∧
    onOpenResetAttempts a = 0 := by
  refine ⟨?_, ?_, ?_, rfl⟩
  · intro h
    rw [attemptsAfterCloses_min]
    unfold attemptReconnect maxReconnectAttempts
    rw [if_pos (show min n 5 < 5 by omega)]
    have he : min n 5 = n := by omega
    rw [he]
  · intro h1 h2
    omega
  · intro h
    rw [attemptsAfterCloses_min]
    unfold attemptReconnect maxReconnectAttempts
    rw [if_neg (show ¬ min n 5 < 5 by omega)]
    have he : min n 5 = 5 := by omega
    rw [he]

/-- Witness for `reconnect_backoff`: the third consecutive close schedules a
6000 ms retry; the sixth consecutive close schedules nothing and reports the
terminal condition. -/
theorem reconnect_backoff_witness :
    attemptReconnect (attemptsAfterCloses 2) = ⟨3, some 6000, false⟩ ∧
    attemptReconnect (attemptsAfterCloses 5) = ⟨5, none, true⟩ := by
  constructor
  · exact (reconnect_backoff 2 0 7).1 (by decide)
  · exact (reconnect_backoff 5 0 7).2.2.1 (by decide)

/-- Counterexample to C6 as stated: at the fifth consecutive close — N equal
to the maximum attempt count — the code still schedules a retry (delay
10000 ms) and reports no terminal condition; the terminal behaviour only
starts at the sixth close. -/
theorem reconnect_backoff_cex :
    attemptReconnect (attemptsAfterCloses 4) = ⟨5, some 10000, false⟩ := by
  decide

/-- C7 amended: in the GameClient renderer (src/game.js drawPlayer), for an
asset set whose east list is non-empty while the west list is empty or
missing, facing west resolves for EVERY animationFrame index to the east
frame at the index clamped into the valid range, with the mirror flag set;
when the east fallback is also empty or missing the actor is skipped
(`none`) rather than failing.  The claim as stated is false for the debug
variant, which falls back only when the west list is missing entirely (not
when present but empty) and skips out-of-range indices instead of clamping:
see the counterexample. -/
theorem west_fallback_resolution (framesByDir : List (String × List String))
    (east : List String) (af : ℕ) :
    (lookupStr framesByDir "west" = none ∨
      lookupStr framesByDir "west" = some []) →
    ((lookupStr framesByDir "east" = some east → east ≠ [] →
      resolveFrameGame framesByDir (some "west") af =
        some (east.getD (min af (east.length - 1)) "", true) ∧
        min af (east.length - 1) < east.length) ∧
     (lookupStr framesByDir "east" = none ∨
        lookupStr framesByDir "east" = some [] →
      resolveFrameGame framesByDir (some "west") af = none)) := by
  intro hwest
  have hw0 : (lookupStr framesByDir "west").getD [] = ([] : List String) := by
    rcases hwest with hw | hw <;> rw [hw] <;> rfl
  constructor
  · intro heast hne
    have hlen : east.length ≠ 0 := fun h => hne (List.length_eq_zero.mp h)
    have hclamp : min af (east.length - 1) < east.length := by omega
    have hemp : east.isEmpty = false := by
      cases east with
      | nil => exact absurd rfl hne
      | cons a l => rfl
    refine ⟨?_, hclamp⟩
    simp [resolveFrameGame, hw0, heast, hemp]
  · intro heast
    have he0 : (lookupStr framesByDir "east").getD [] = ([] : List String) := by
      rcases heast with he | he <;> rw [he] <;> rfl
    simp [resolveFrameGame, hw0, he0]

/-- Witness for `west_fallback_resolution`: an asset set with only east frames
["e0", "e1"], facing west at out-of-range index 5, resolves to the clamped
east frame "e1" with the mirror flag; with no east frames either, the actor
is skipped. -/
theorem west_fallback_resolution_witness :
    resolveFrameGame [("east", ["e0", "e1"])] (some "west") 5 =
      some ("e1", true) ∧
    resolveFrameGame [("west", []), ("east", [])] (some "west") 0 = none := by
  constructor
  · have h := (west_fallback_resolution [("east", ["e0", "e1"])] ["e0", "e1"] 5
      (Or.inl (by decide))).1 (by decide) (by decide)
    exact h.1
  · exact (west_fallback_resolution [("west", []), ("east", [])] [] 0
      (Or.inr (by decide))).2 (Or.inr (by decide))

/-- Counterexample to C7 as stated: in the debug variant
(src/debug_game.js lines 361-374), an asset set with a present-but-empty
west list and a non-empty east list does NOT fall back — the actor is
skipped (`none`) although the claim requires resolution to the mirrored east
frame some ("e0", true). -/
theorem west_fallback_resolution_cex :
    resolveFrameDebug [("west", []), ("east", ["e0"])] (some "west") 0 = none ∧
    resolveFrameDebug [("east", ["e0"])] (some "west") 1 = none := by
  constructor <;> decide

end MMO
